import Mathlib

/-!
Shallow embedding of the figma-mcp relay system.

Three components, each embedded from its source file:

* Command Issuer — `src/mcp_server/server.ts`: the `pending` map of
  correlation ids, the `connect` handshake, `sendCommand`, and the
  WebSocket event handlers (`message`, `close`) plus the per-request
  timeout timer.  Promise settlement is modelled as an append-only log of
  `Outcome`s: invoking a stored resolve/reject continuation (or the raw
  timer reject) appends one entry, so double resolution would be visible
  as two log entries for one id.
* Relay Hub — `src/mcp_server/socket.ts` (Bun WebSocket server, port
  3055): the `channels : Map<string, Set<ws>>` registry and the
  `websocket.message` handler.  Transport endpoints are natural numbers;
  a send (`ws.send` / `client.send`) is recorded as a `(recipient,
  envelope)` pair in an effect list.  The JS `readyState ===
  WebSocket.OPEN` test is modelled by a predicate `openQ` on endpoints.
* Command Executor — `src/figma_plugin/code.js`: the flat `handlers`
  table and the `figma.ui.onmessage` dispatch.  Handler bodies mutate
  live Figma state, which is outside the embedding; a handler run is
  abstracted as an environment function returning either a value or a
  thrown message, while the dispatch, the unknown-command path and the
  reply envelope shape are taken verbatim from the source.

Payload objects (JSON values carried opaquely through the relay) are a
type parameter `M` throughout.
-/

/-! ### Constants from `server.ts` -/

def WS_URL : String := "ws://localhost:3055"

def CHANNEL : String := "figma-mcp"

def TIMEOUT_MS : Nat := 30000

/-! ### Command Issuer (`server.ts`) -/

/-- The `FigmaResponse` interface: `{ id: string; result?: unknown;
error?: string }`.  Absent optional fields are `none`. -/
structure FigmaResponse (M : Type) where
  id : String
  result : Option M
  error : Option String
  deriving Repr, DecidableEq

/-- One settlement of a `sendCommand` promise.  `resolved` carries
`msg.result` (possibly `undefined`, i.e. `none`); `rejectedRemote`
carries the `Error` built from `msg.error`; `rejectedTimeout` is the
timer's `Timeout waiting for Figma response` rejection. -/
inductive Outcome (M : Type) where
  | resolved (v : Option M)
  | rejectedRemote (e : String)
  | rejectedTimeout
  deriving Repr, DecidableEq

/-- Issuer-side mutable state: the key set of the `pending` map (each
entry's value is its resolve/reject continuation pair, identified here by
the id), the append-only log of settlements, and whether `ws` is non-null
and `OPEN`. -/
structure IssuerState (M : Type) where
  pending : List String
  outcomes : List (String × Outcome M)
  connected : Bool
  deriving Repr, DecidableEq

def issuerInit (M : Type) : IssuerState M := ⟨[], [], false⟩

/-- The settlements recorded for correlation id `i`. -/
def outFor (st : IssuerState M) (i : String) : List (String × Outcome M) :=
  st.outcomes.filter (fun p => p.1 == i)

/-- A frame arriving on the Issuer's WebSocket, after the
`JSON.parse` in the `message` handler: unparseable text, a
`type:"broadcast"` envelope (whose `message` field may be absent/falsy,
hence `Option`), or any other parsed value. -/
inductive IssuerFrame (M : Type) where
  | malformed
  | broadcast (msg : Option (FigmaResponse M))
  | other
  deriving Repr, DecidableEq

/-- JS truthiness of `msg.error : string | undefined`: `undefined` and
`""` are falsy. -/
def errTruthy : Option String → Bool
  | none => false
  | some s => !(s == "")

/-- How the `message` handler settles a matched request from the
envelope's payload: `if (msg.error) handler.reject(new Error(msg.error));
else handler.resolve(msg.result);`. -/
def settleOf (msg : FigmaResponse M) : Outcome M :=
  match msg.error with
  | some e => if e == "" then .resolved msg.result else .rejectedRemote e
  | none => .resolved msg.result

/-- The `ws.on("message", ...)` handler from `connect`: on a broadcast
envelope with a truthy `message`, look the id up in `pending`; if found,
delete the entry and settle with `settleOf`; otherwise (and on parse
errors or other frames) do nothing. -/
def onMessage (st : IssuerState M) (f : IssuerFrame M) : IssuerState M :=
  match f with
  | .broadcast (some msg) =>
      if st.pending.contains msg.id then
        { st with
          pending := st.pending.filter (fun j => !(j == msg.id))
          outcomes := st.outcomes ++ [(msg.id, settleOf msg)] }
      else st
  | _ => st

/-- The `setTimeout` callback for id `i` firing: `pending.delete(id);
reject(new Error(...))`.  The timer is armed when the entry is created
and cleared by the wrapped continuations, which are only invoked after
the entry is deleted, so the timer can fire only while the entry is still
present — modelled by the guard. -/
def onTimeout (st : IssuerState M) (i : String) : IssuerState M :=
  if st.pending.contains i then
    { st with
      pending := st.pending.filter (fun j => !(j == i))
      outcomes := st.outcomes ++ [(i, .rejectedTimeout)] }
  else st

/-- The `ws.on("close", ...)` handler: logs a warning and sets
`ws = null`.  It does not touch `pending` and settles nothing. -/
def onClose (st : IssuerState M) : IssuerState M :=
  { st with connected := false }

/-- `pending.set(id, {...})` in `sendCommand`: `Map.set` adds the key if
absent (and would only replace the value if present, leaving the key set
unchanged). -/
def registerPending (st : IssuerState M) (i : String) : IssuerState M :=
  { st with
    pending := if st.pending.contains i then st.pending else st.pending ++ [i] }

/-- Transport-level actions the Issuer performs, in program order. -/
inductive WsAction where
  | wsConnect
  | sendJoin (channel : String)
  | sendEnvelope (channel : String) (id : String) (command : String)
  deriving Repr, DecidableEq

/-- `connect()`: if `ws` is already `OPEN` it resolves at once with no
transport action; otherwise it opens a new WebSocket and, inside the
`open` listener and before resolving, sends the
`{type:"join", channel: CHANNEL, id: uuidv4()}` envelope. -/
def connectActions (connected : Bool) : List WsAction :=
  if connected then [] else [.wsConnect, .sendJoin CHANNEL]

/-- `sendCommand`: `await connect()` first, then transmit
`{type:"message", channel: CHANNEL, message: {id, command, params}}`;
the envelope send is sequenced after `connect` has resolved. -/
def sendCommandActions (connected : Bool) (i command : String) : List WsAction :=
  connectActions connected ++ [.sendEnvelope CHANNEL i command]

/-- An event hitting the Issuer's single-threaded event loop. -/
inductive IssuerEvent (M : Type) where
  | send (i : String)
  | frame (f : IssuerFrame M)
  | timeout (i : String)
  | close

/-- One event-loop step of the Issuer. -/
def issuerStep (st : IssuerState M) : IssuerEvent M → IssuerState M
  | .send i => registerPending st i
  | .frame f => onMessage st f
  | .timeout i => onTimeout st i
  | .close => onClose st

def issuerRun (st : IssuerState M) (evs : List (IssuerEvent M)) : IssuerState M :=
  evs.foldl issuerStep st

/-- Correlation ids registered by the `send` events of a trace.
`uuidv4` makes these fresh, hence the `Nodup` hypotheses below. -/
def sentIds : List (IssuerEvent M) → List String
  | [] => []
  | .send i :: evs => i :: sentIds evs
  | _ :: evs => sentIds evs

/-! ### Relay Hub (`socket.ts`) -/

/-- The Hub's channel registry `channels : Map<string, Set<ws>>`,
as an association list; endpoints are `Nat` handles.  Each member list
is in `Set` insertion order. -/
structure HubState where
  channels : List (String × List Nat)
  deriving Repr, DecidableEq

def hubInit : HubState := ⟨[]⟩

/-- `channels.get(ch)`. -/
def getChannel (st : HubState) (ch : String) : Option (List Nat) :=
  (st.channels.find? (fun p => p.1 == ch)).map Prod.snd

/-- `channels.get(data.channel)` where `data.channel` may be absent. -/
def getChannelOpt (st : HubState) : Option String → Option (List Nat)
  | none => none
  | some ch => getChannel st ch

/-- `channels.set(ch, ...)`: replace the binding in place, or append a
new one. -/
def setChannel (st : HubState) (ch : String) (ms : List Nat) : HubState :=
  ⟨updateAssoc st.channels⟩
where
  updateAssoc : List (String × List Nat) → List (String × List Nat)
    | [] => [(ch, ms)]
    | (k, v) :: rest => if k == ch then (ch, ms) :: rest else (k, v) :: updateAssoc rest

/-- Wire envelopes the Hub emits.  `system` is
`{type:"system", message:<string>, channel?}`; `systemAck` is the join
acknowledgment `{type:"system", message:{id, result}, channel}`;
`error` is `{type:"error", message}`; `broadcastMsg` is
`{type:"broadcast", message, sender, channel}` with `sender` the literal
`"You"` or `"Remote"`. -/
inductive HubOut (M : Type) where
  | system (message : String) (channel : Option String)
  | systemAck (id : Option String) (result : String) (channel : String)
  | error (message : String)
  | broadcastMsg (message : M) (sender : String) (channel : String)
  deriving Repr, DecidableEq

/-- A frame arriving at the Hub's `websocket.message` handler after
`JSON.parse`: unparseable text, a `join`, a `message` (its `channel`
field may be absent in either), or any other parsed value, which falls
through both `if` branches. -/
inductive HubFrame (M : Type) where
  | malformed
  | join (channel : Option String) (id : Option String)
  | message (channel : Option String) (message : M)
  | other
  deriving Repr, DecidableEq

/-- JS truthiness of the `channel` field: absent or `""` is falsy. -/
def chFalsy : Option String → Bool
  | none => true
  | some s => s == ""

/-- The `broadcast(channelName, data, exclude)` helper: send `data` to
every member of the channel other than `exclude` whose socket is `OPEN`
(`openQ`). -/
def hubBroadcast (openQ : Nat → Bool) (st : HubState) (ch : String)
    (data : HubOut M) (exclude : Option Nat) : List (Nat × HubOut M) :=
  match getChannel st ch with
  | none => []
  | some clients =>
      (clients.filter (fun c => !(some c == exclude) && openQ c)).map (fun c => (c, data))

/-- The Hub's `websocket.message(ws, raw)` handler, returning the updated
registry and the list of sends it performs, in order.  The whole body is
wrapped in `try/catch`, so a parse failure only logs. -/
def hubMessage (openQ : Nat → Bool) (st : HubState) (sender : Nat)
    (f : HubFrame M) : HubState × List (Nat × HubOut M) :=
  match f with
  | .malformed => (st, [])
  | .other => (st, [])
  | .join chOpt idOpt =>
      if chFalsy chOpt then
        (st, [(sender, .error "channel is required")])
      else
        let ch := chOpt.getD ""
        let members := (getChannel st ch).getD []
        let members' := if members.contains sender then members else members ++ [sender]
        let st' := setChannel st ch members'
        (st',
          [(sender, .system ("Joined channel: " ++ ch) (some ch)),
           (sender, .systemAck idOpt ("Connected to channel: " ++ ch) ch)]
          ++ hubBroadcast openQ st' ch (.system "A new user joined" (some ch)) (some sender))
  | .message chOpt m =>
      match getChannelOpt st chOpt with
      | none => (st, [(sender, .error "Join a channel first")])
      | some clients =>
          if clients.contains sender then
            let ch := chOpt.getD ""
            (st, (clients.filter openQ).map (fun c =>
              (c, .broadcastMsg m (if c == sender then "You" else "Remote") ch)))
          else
            (st, [(sender, .error "Join a channel first")])

/-! ### Command Executor (`code.js`) -/

/-- The keys of the `handlers` table, in source order. -/
def handlerNames : List String :=
  ["get_document_info", "get_selection", "get_node_info", "get_nodes_info",
   "get_styles", "get_local_components", "create_rectangle", "create_text",
   "create_frame", "set_fill_color", "move_node", "resize_node",
   "delete_node", "set_text_content", "export_node_as_image"]

/-- Result of awaiting `handlers[command](params)`: the handler bodies
act on live Figma state, abstracted by the environment `run` below; a
run either returns a value or throws with a message. -/
inductive HandlerResult (M : Type) where
  | ok (v : M)
  | throws (msg : String)
  deriving Repr, DecidableEq

/-- The reply envelope posted by `figma.ui.postMessage`: `{id, result}`
on success, `{id, error}` on failure. -/
structure Reply (M : Type) where
  id : String
  result : Option M
  error : Option String
  deriving Repr, DecidableEq

/-- `figma.ui.onmessage` for one `figma_command` envelope `{id, command,
params}`: look `command` up in `handlers`; a miss throws
`Unknown command: <command>`, caught by the surrounding `try/catch`,
which replies `{id, error: err.message}`; a handler throw is caught the
same way; a successful run replies `{id, result}`.  Exactly one reply is
posted either way. -/
def onCommand (run : String → HandlerResult M) (i command : String) : Reply M :=
  if handlerNames.contains command then
    match run command with
    | .ok v => ⟨i, some v, none⟩
    | .throws e => ⟨i, none, some e⟩
  else
    ⟨i, none, some ("Unknown command: " ++ command)⟩

/-! ### Theorems -/

/-- C9: a transport frame whose payload is not valid JSON is dropped by
the Hub's `message` handler: the handler returns normally (it is a total
function here, mirroring the enclosing `try/catch` that only logs), no
envelope is sent to anyone, and the channel registry — every channel's
membership — is unchanged. -/
theorem hub_malformed_frame_noop {M : Type} (openQ : Nat → Bool) (st : HubState) (sender : Nat) :
    hubMessage openQ st sender (HubFrame.malformed (M := M)) = (st, []) := rfl

/-- C10: a `join` whose `channel` field is missing or empty makes the Hub
reply `type:"error", message:"channel is required"` to the sender only;
the registry is returned unchanged, so no channel is created and no
membership set changes, and no other endpoint is sent anything. -/
theorem hub_join_missing_channel_rejected {M : Type} (openQ : Nat → Bool) (st : HubState)
    (sender : Nat) (chOpt idOpt : Option String) (h : chFalsy chOpt = true) :
    hubMessage openQ st sender (HubFrame.join (M := M) chOpt idOpt) =
      (st, [(sender, .error "channel is required")]) := by
  simp [hubMessage, h]

theorem hub_join_missing_channel_rejected_witness :
    hubMessage (M := Nat) (fun _ => true) hubInit 0 (HubFrame.join none none) =
      (hubInit, [(0, .error "channel is required")]) :=
  hub_join_missing_channel_rejected (fun _ => true) hubInit 0 none none rfl

/-- C7: a `message` envelope sent into a channel the sender has not
joined — including a channel name bound to no registry entry at all, and
an absent `channel` field — makes the Hub send the local
`type:"error", message:"Join a channel first"` notice to the sender
only; the registry is unchanged and no other endpoint receives anything. -/
theorem hub_send_without_membership {M : Type} (openQ : Nat → Bool) (st : HubState)
    (sender : Nat) (chOpt : Option String) (m : M)
    (h : ∀ clients, getChannelOpt st chOpt = some clients → clients.contains sender = false) :
    hubMessage openQ st sender (HubFrame.message chOpt m) =
      (st, [(sender, .error "Join a channel first")]) := by
  unfold hubMessage
  cases hg : getChannelOpt st chOpt with
  | none => simp [hg]
  | some clients =>
      have hns : sender ∉ clients := by simpa using h clients hg
      simp [hg, hns]

theorem hub_send_without_membership_witness :
    hubMessage (M := Nat) (fun _ => true) ⟨[("c1", [1])]⟩ 0 (HubFrame.message (some "c1") 5) =
      (⟨[("c1", [1])]⟩, [(0, .error "Join a channel first")]) :=
  hub_send_without_membership (fun _ => true) ⟨[("c1", [1])]⟩ 0 (some "c1") 5 (by decide)

/-- C6: when a member `s` of channel `c` (all of whose members' sockets
are `OPEN`) sends `type:"message", channel:c, message:m`, the Hub sends
every current member of `c` — the sender included — exactly the envelope
`type:"broadcast", message:m, sender:x, channel:c`, where `x` is `"You"`
for the sender and `"Remote"` for every other member, and the registry is
unchanged.  The witness instantiates the two-member scenario: channel
`"c1"` with members `0` and `1`, endpoint `0` sending payload `1`;
endpoint `1` receives it tagged `"Remote"`. -/
theorem hub_message_broadcasts_to_members {M : Type} (openQ : Nat → Bool) (st : HubState)
    (s : Nat) (c : String) (m : M) (members : List Nat)
    (hm : getChannel st c = some members)
    (hs : members.contains s = true)
    (hopen : ∀ x ∈ members, openQ x = true) :
    hubMessage openQ st s (HubFrame.message (some c) m) =
      (st, members.map (fun cl =>
        (cl, .broadcastMsg m (if cl == s then "You" else "Remote") c))) := by
  have hmem : s ∈ members := by simpa using hs
  simp [hubMessage, getChannelOpt, hm, hmem, List.filter_eq_self.mpr hopen]

theorem hub_message_broadcasts_to_members_witness :
    hubMessage (M := Nat) (fun _ => true) ⟨[("c1", [0, 1])]⟩ 0 (HubFrame.message (some "c1") 1) =
      (⟨[("c1", [0, 1])]⟩,
       [(0, .broadcastMsg 1 "You" "c1"), (1, .broadcastMsg 1 "Remote" "c1")]) := by
  have h := hub_message_broadcasts_to_members (fun _ => true) ⟨[("c1", [0, 1])]⟩ 0 "c1"
    (1 : Nat) [0, 1] (by decide) (by decide) (by decide)
  simpa using h

/-- C2, counterexample: the claim says a transport close immediately
fails every outstanding request with a `TransportError`.  In the source,
the `close` handler only logs and sets `ws = null`: with request `"a"`
outstanding, after `onClose` the request is still pending and nothing
has been settled (no rejection of any kind, let alone a transport one),
so it hangs until its own timer fires. -/
theorem close_does_not_fail_pending :
    "a" ∈ (onClose (M := Nat) ⟨["a"], [], true⟩).pending ∧
      (onClose (M := Nat) ⟨["a"], [], true⟩).outcomes = [] := by
  constructor
  · simp [onClose]
  · rfl

/-- C2, amended: when the transport closes while requests are
outstanding, the `close` handler does not fail any of them — the pending
registry and the settlement log are untouched; it only clears the socket
reference, so each outstanding request is left to its own 30-second
timer (which rejects it with the timeout error, see the C3 theorem) and
a subsequent `invoke` finds no open socket and triggers a fresh
connect-and-join attempt. -/
theorem close_only_clears_socket {M : Type} (st : IssuerState M) :
    (onClose st).pending = st.pending ∧
      (onClose st).outcomes = st.outcomes ∧
      (onClose st).connected = false ∧
      connectActions (onClose st).connected = [.wsConnect, .sendJoin CHANNEL] :=
  ⟨rfl, rfl, rfl, rfl⟩

/-- C3: a pending request whose timer fires is rejected with the timeout
error exactly at the fixed 30000 ms deadline (`TIMEOUT_MS`), its entry is
removed from the pending registry, and a matching-id broadcast reply
arriving afterwards leaves the Issuer state exactly as it was — no
observable effect. -/
theorem timeout_rejects_and_removes_entry {M : Type} (st : IssuerState M) (i : String)
    (h : i ∈ st.pending) (res : Option M) (err : Option String) :
    TIMEOUT_MS = 30000 ∧
      i ∉ (onTimeout st i).pending ∧
      (onTimeout st i).outcomes = st.outcomes ++ [(i, .rejectedTimeout)] ∧
      onMessage (onTimeout st i) (.broadcast (some ⟨i, res, err⟩)) = onTimeout st i := by
  have hni : i ∉ (onTimeout st i).pending := by simp [onTimeout, h]
  refine ⟨rfl, hni, ?_, ?_⟩
  · simp [onTimeout, h]
  · simp [onMessage, hni]

theorem timeout_rejects_and_removes_entry_witness :
    TIMEOUT_MS = 30000 ∧
      "a" ∉ (onTimeout (M := Nat) ⟨["a"], [], true⟩ "a").pending ∧
      (onTimeout (M := Nat) ⟨["a"], [], true⟩ "a").outcomes = [] ++ [("a", .rejectedTimeout)] ∧
      onMessage (onTimeout (M := Nat) ⟨["a"], [], true⟩ "a") (.broadcast (some ⟨"a", some 7, none⟩)) =
        onTimeout (M := Nat) ⟨["a"], [], true⟩ "a" :=
  timeout_rejects_and_removes_entry ⟨["a"], [], true⟩ "a" (by simp) (some 7) none

/-- C5: an `invoke` made while the transport is not connected performs,
in order: open the WebSocket, send the channel-join envelope (inside the
`open` listener, before `connect` resolves), and only then — after the
asynchronous establishment has completed — transmit the request
envelope, which is the last transport action and occurs nowhere earlier. -/
theorem sendCommand_connects_and_joins_first (i command : String) :
    ∃ pre : List WsAction,
      sendCommandActions false i command = pre ++ [WsAction.sendEnvelope CHANNEL i command] ∧
        WsAction.wsConnect ∈ pre ∧
        WsAction.sendJoin CHANNEL ∈ pre ∧
        WsAction.sendEnvelope CHANNEL i command ∉ pre :=
  ⟨[.wsConnect, .sendJoin CHANNEL], rfl, by simp, by simp, by simp⟩

/-- C8, counterexample: for a command name outside the handler table the
Executor's reply carries the message `Unknown command: <name>` built by
the thrown `Error`, not the literal string `unknown command` the claim
quotes. -/
theorem unknown_command_message_cex :
    (onCommand (M := Nat) (fun _ => .ok 0) "i1" "nope").error = some "Unknown command: nope" ∧
      (onCommand (M := Nat) (fun _ => .ok 0) "i1" "nope").error ≠ some "unknown command" := by
  constructor
  · rfl
  · decide

/-- C8, amended: for every processed command envelope the Executor emits
exactly one reply (the dispatch is a total function into single replies)
tagged with the original id; when the command is not a key of the
handler table the reply is `id` with `error: "Unknown command: <name>"`
and no `result`; when the handler throws, the reply is `id` with the
thrown message as `error` and no `result`; when the handler succeeds,
the reply is `id` with its value as `result` and no `error`; and in
every case the reply has a `result` exactly when it has no `error`. -/
theorem executor_reply_shape {M : Type} (run : String → HandlerResult M) (i command : String) :
    (onCommand run i command).id = i ∧
      (handlerNames.contains command = false →
        onCommand run i command = ⟨i, none, some ("Unknown command: " ++ command)⟩) ∧
      (∀ e, handlerNames.contains command = true → run command = .throws e →
        onCommand run i command = ⟨i, none, some e⟩) ∧
      (∀ v, handlerNames.contains command = true → run command = .ok v →
        onCommand run i command = ⟨i, some v, none⟩) ∧
      ((onCommand run i command).result = none ↔ (onCommand run i command).error ≠ none) := by
  unfold onCommand
  cases hc : handlerNames.contains command with
  | false => simp [hc]
  | true =>
      cases hr : run command with
      | ok v => simp [hc, hr]
      | throws e => simp [hc, hr]

theorem executor_reply_shape_witness :
    onCommand (M := Nat) (fun _ => .ok 7) "a" "get_selection" = ⟨"a", some 7, none⟩ :=
  (executor_reply_shape (fun _ => .ok 7) "a" "get_selection").2.2.2.1 7 (by decide) rfl

/-! ### Correlation lemmas for the Issuer -/

lemma outFor_append (st : IssuerState M) (p : List String) (c : Bool) (k i : String)
    (o : Outcome M) :
    outFor ⟨p, st.outcomes ++ [(k, o)], c⟩ i =
      outFor st i ++ (if k == i then [(k, o)] else []) := by
  simp only [outFor, List.filter_append]
  congr 1
  by_cases h : (k == i) = true
  · simp [h]
  · simp [h]

lemma onMessage_settles (st : IssuerState M) (msg : FigmaResponse M)
    (hp : msg.id ∈ st.pending) :
    onMessage st (.broadcast (some msg)) =
      ⟨st.pending.filter (fun j => !(j == msg.id)),
       st.outcomes ++ [(msg.id, settleOf msg)], st.connected⟩ := by
  simp [onMessage, hp]

/-- A frame that is not a broadcast carrying id `i` neither disturbs
`i`'s pending entry nor records anything for `i`. -/
lemma onMessage_nonmatching (st : IssuerState M) (f : IssuerFrame M) (i : String)
    (h : ∀ m', f = IssuerFrame.broadcast (some m') → m'.id ≠ i) :
    (i ∈ (onMessage st f).pending ↔ i ∈ st.pending) ∧
      outFor (onMessage st f) i = outFor st i := by
  cases f with
  | malformed => exact ⟨Iff.rfl, rfl⟩
  | other => exact ⟨Iff.rfl, rfl⟩
  | broadcast om =>
      cases om with
      | none => exact ⟨Iff.rfl, rfl⟩
      | some m' =>
          have hne : m'.id ≠ i := h m' rfl
          by_cases hp : m'.id ∈ st.pending
          · have hine : i ≠ m'.id := fun he => hne he.symm
            rw [onMessage_settles st m' hp]
            constructor
            · constructor
              · intro hi; exact (List.mem_filter.1 hi).1
              · intro hi; exact List.mem_filter.2 ⟨hi, by simp [hine]⟩
            · rw [outFor_append st _ _ _ _ _]
              simp [hne]
          · simp [onMessage, hp]

/-- Once `i` is no longer pending, no further frame can touch it. -/
lemma foldl_onMessage_stable (fs : List (IssuerFrame M)) :
    ∀ (st : IssuerState M) (i : String), i ∉ st.pending →
      i ∉ (fs.foldl onMessage st).pending ∧
        outFor (fs.foldl onMessage st) i = outFor st i := by
  induction fs with
  | nil => exact fun st i h => ⟨h, rfl⟩
  | cons f fs ih =>
      intro st i h
      have step : i ∉ (onMessage st f).pending ∧ outFor (onMessage st f) i = outFor st i := by
        cases f with
        | malformed => exact ⟨h, rfl⟩
        | other => exact ⟨h, rfl⟩
        | broadcast om =>
            cases om with
            | none => exact ⟨h, rfl⟩
            | some m' =>
                by_cases hp : m'.id ∈ st.pending
                · have hne : m'.id ≠ i := fun he => h (he ▸ hp)
                  rw [onMessage_settles st m' hp]
                  refine ⟨?_, ?_⟩
                  · intro hi; exact h (List.mem_filter.1 hi).1
                  · rw [outFor_append st _ _ _ _ _]
                    simp [hne]
                · simp [onMessage, hp, h]
      obtain ⟨h1, h2⟩ := step
      obtain ⟨h3, h4⟩ := ih (onMessage st f) i h1
      exact ⟨h3, h4.trans h2⟩

/-- C1: for an `invoke` whose correlation id is pending and not yet
settled, processing any sequence of incoming frames that contains a
broadcast reply carrying that id — in any position, interleaved with
other requests' replies arriving in any order, duplicates of the
matching reply allowed — settles the request exactly once, with exactly
that envelope's payload: `resolve(msg.result)` when its `error` field is
falsy, `reject(new Error(msg.error))` otherwise, and never with the
payload of any other envelope. -/
theorem invoke_settles_with_matching_envelope {M : Type} (frames : List (IssuerFrame M)) :
    ∀ (st : IssuerState M) (msg : FigmaResponse M),
      msg.id ∈ st.pending →
      outFor st msg.id = [] →
      IssuerFrame.broadcast (some msg) ∈ frames →
      (∀ m', IssuerFrame.broadcast (some m') ∈ frames → m'.id = msg.id → m' = msg) →
      outFor (frames.foldl onMessage st) msg.id = [(msg.id, settleOf msg)] := by
  induction frames with
  | nil => intro st msg _ _ hmem _; simp at hmem
  | cons f fs ih =>
      intro st msg hp h0 hmem huniq
      rw [List.foldl_cons]
      cases f with
      | broadcast om =>
          cases om with
          | some m' =>
              by_cases hid : m'.id = msg.id
              · have hm : m' = msg := huniq m' (List.mem_cons_self _ _) hid
                subst hm
                have hset := onMessage_settles st m' hp
                have h1 : m'.id ∉ (onMessage st (.broadcast (some m'))).pending := by
                  rw [hset]; intro hi
                  have hcontra := (List.mem_filter.1 hi).2
                  simp at hcontra
                have h2 : outFor (onMessage st (.broadcast (some m'))) m'.id =
                    [(m'.id, settleOf m')] := by
                  rw [hset, outFor_append st _ _ _ _ _, h0]; simp
                obtain ⟨_, hstab⟩ := foldl_onMessage_stable fs (onMessage st (.broadcast (some m'))) m'.id h1
                rw [hstab, h2]
              · have hpre := onMessage_nonmatching st (.broadcast (some m')) msg.id
                  (by intro m'' hm''; cases hm''; exact fun he => hid he)
                have hmem' : IssuerFrame.broadcast (some msg) ∈ fs := by
                  rcases List.mem_cons.1 hmem with he | hm
                  · exact absurd (by injection he.symm with h; injection h with h; rw [h]) hid
                  · exact hm
                exact ih (onMessage st (.broadcast (some m'))) msg (hpre.1.2 hp)
                  (hpre.2.trans h0)
                  hmem'
                  (fun m'' hm'' hid'' => huniq m'' (List.mem_cons_of_mem _ hm'') hid'')
          | none =>
              have hmem' : IssuerFrame.broadcast (some msg) ∈ fs := by
                rcases List.mem_cons.1 hmem with he | hm
                · exact absurd he (by simp)
                · exact hm
              exact ih st msg hp h0 hmem'
                (fun m'' hm'' hid'' => huniq m'' (List.mem_cons_of_mem _ hm'') hid'')
      | malformed =>
          have hmem' : IssuerFrame.broadcast (some msg) ∈ fs := by
            rcases List.mem_cons.1 hmem with he | hm
            · exact absurd he (by simp)
            · exact hm
          exact ih st msg hp h0 hmem'
            (fun m'' hm'' hid'' => huniq m'' (List.mem_cons_of_mem _ hm'') hid'')
      | other =>
          have hmem' : IssuerFrame.broadcast (some msg) ∈ fs := by
            rcases List.mem_cons.1 hmem with he | hm
            · exact absurd he (by simp)
            · exact hm
          exact ih st msg hp h0 hmem'
            (fun m'' hm'' hid'' => huniq m'' (List.mem_cons_of_mem _ hm'') hid'')

theorem invoke_settles_with_matching_envelope_witness :
    outFor (List.foldl onMessage ⟨["a", "b"], [], true⟩
        [IssuerFrame.broadcast (some ⟨"b", some 5, none⟩),
         IssuerFrame.broadcast (some ⟨"a", none, some "boom"⟩)]) "a" =
      [("a", settleOf (M := Nat) ⟨"a", none, some "boom"⟩)] := by
  have h := invoke_settles_with_matching_envelope
    [IssuerFrame.broadcast (some ⟨"b", some 5, none⟩),
     IssuerFrame.broadcast (some ⟨"a", none, some "boom"⟩)]
    ⟨["a", "b"], [], true⟩ ⟨"a", none, some "boom"⟩
    (by simp) rfl (by simp)
    (by
      intro m' hm' hid
      simp at hm'
      rcases hm' with h1 | h1
      · rw [h1] at hid; simp at hid
      · exact h1)
  simpa using h

/-! ### Single-settlement invariant for the Issuer -/

/-- Registry/settlement invariant, relative to the set `S` of ids issued
so far: the pending key list is duplicate-free, every pending or settled
id was issued, no id is ever settled twice, and a pending id has not
been settled yet. -/
def IssuerInv (S : List String) (st : IssuerState M) : Prop :=
  st.pending.Nodup ∧
    (∀ i ∈ st.pending, i ∈ S) ∧
    (∀ i, outFor st i ≠ [] → i ∈ S) ∧
    (∀ i, (outFor st i).length ≤ 1) ∧
    (∀ i ∈ st.pending, outFor st i = [])

/-- Both settlement paths (matched reply, timer) have the same shape:
remove the entry for a currently pending `k` and append one settlement;
this preserves the invariant. -/
lemma inv_settle (S : List String) (st : IssuerState M) (k : String) (o : Outcome M)
    (hk : k ∈ st.pending) (h : IssuerInv S st) :
    IssuerInv S ⟨st.pending.filter (fun j => !(j == k)), st.outcomes ++ [(k, o)], st.connected⟩ := by
  obtain ⟨h1, h2, h3, h4, h5⟩ := h
  refine ⟨h1.filter _, ?_, ?_, ?_, ?_⟩
  · intro i hi; exact h2 i (List.mem_filter.1 hi).1
  · intro i hne
    rw [outFor_append st _ _ _ _ _] at hne
    by_cases hik : k = i
    · exact hik ▸ h2 k hk
    · apply h3 i; simpa [hik] using hne
  · intro i
    rw [outFor_append st _ _ _ _ _]
    by_cases hik : k = i
    · subst hik
      rw [h5 k hk]; simp
    · simpa [hik] using h4 i
  · intro i hi
    have hmem := (List.mem_filter.1 hi).1
    have hne : ¬ (i = k) := by
      have := (List.mem_filter.1 hi).2
      simpa using this
    rw [outFor_append st _ _ _ _ _]
    have : ¬ (k = i) := fun he => hne he.symm
    simp [this, h5 i hmem]

/-- The ids issued after processing one more event. -/
def sentAfter (S : List String) : IssuerEvent M → List String
  | .send i => i :: S
  | _ => S

lemma issuerStep_inv (S : List String) (st : IssuerState M) (e : IssuerEvent M)
    (h : IssuerInv S st) (hfresh : ∀ i, e = .send i → i ∉ S) :
    IssuerInv (sentAfter S e) (issuerStep st e) := by
  obtain ⟨h1, h2, h3, h4, h5⟩ := h
  cases e with
  | send i =>
      have hi : i ∉ S := hfresh i rfl
      have hip : i ∉ st.pending := fun hm => hi (h2 i hm)
      have hreg : issuerStep st (.send i) =
          { st with pending := st.pending ++ [i] } := by
        simp [issuerStep, registerPending, hip]
      rw [hreg]
      have hout : outFor st i = [] := by
        by_contra hne
        exact hi (h3 i hne)
      refine ⟨?_, ?_, ?_, h4, ?_⟩
      · simp [List.nodup_append, h1, hip]
      · intro j hj
        rcases List.mem_append.1 hj with hj | hj
        · exact List.mem_cons_of_mem _ (h2 j hj)
        · simp at hj; subst hj; exact List.mem_cons_self _ _
      · intro j hne
        exact List.mem_cons_of_mem _ (h3 j hne)
      · intro j hj
        rcases List.mem_append.1 hj with hj | hj
        · exact h5 j hj
        · simp at hj; subst hj; exact hout
  | frame f =>
      cases f with
      | malformed => exact ⟨h1, h2, h3, h4, h5⟩
      | other => exact ⟨h1, h2, h3, h4, h5⟩
      | broadcast om =>
          cases om with
          | none => exact ⟨h1, h2, h3, h4, h5⟩
          | some msg =>
              by_cases hp : msg.id ∈ st.pending
              · have hstep : issuerStep st (.frame (.broadcast (some msg))) =
                    ⟨st.pending.filter (fun j => !(j == msg.id)),
                     st.outcomes ++ [(msg.id, settleOf msg)], st.connected⟩ := by
                  simp [issuerStep, onMessage, hp]
                rw [hstep]
                exact inv_settle S st msg.id (settleOf msg) hp ⟨h1, h2, h3, h4, h5⟩
              · have hstep : issuerStep st (.frame (.broadcast (some msg))) = st := by
                  simp [issuerStep, onMessage, hp]
                rw [hstep]
                exact ⟨h1, h2, h3, h4, h5⟩
  | timeout i =>
      by_cases hp : i ∈ st.pending
      · have hstep : issuerStep st (.timeout i) =
            ⟨st.pending.filter (fun j => !(j == i)),
             st.outcomes ++ [(i, .rejectedTimeout)], st.connected⟩ := by
          simp [issuerStep, onTimeout, hp]
        rw [hstep]
        exact inv_settle S st i .rejectedTimeout hp ⟨h1, h2, h3, h4, h5⟩
      · have hstep : issuerStep st (.timeout i) = st := by
          simp [issuerStep, onTimeout, hp]
        rw [hstep]
        exact ⟨h1, h2, h3, h4, h5⟩
  | close => exact ⟨h1, h2, h3, h4, h5⟩

lemma issuerRun_inv (evs : List (IssuerEvent M)) :
    ∀ (S : List String) (st : IssuerState M),
      IssuerInv S st → (∀ i ∈ sentIds evs, i ∉ S) → (sentIds evs).Nodup →
      ∃ T, IssuerInv T (issuerRun st evs) := by
  induction evs with
  | nil => exact fun S st h _ _ => ⟨S, h⟩
  | cons e rest ih =>
      intro S st h hdisj hnd
      have hfresh : ∀ i, e = .send i → i ∉ S := by
        intro i he; subst he
        exact hdisj i (by simp [sentIds])
      have hstep := issuerStep_inv S st e h hfresh
      have hrun : issuerRun st (e :: rest) = issuerRun (issuerStep st e) rest := rfl
      rw [hrun]
      cases e with
      | send i =>
          have hids : sentIds (IssuerEvent.send i :: rest) = i :: sentIds rest := rfl
          rw [hids] at hdisj hnd
          refine ih (i :: S) (issuerStep st (.send i)) hstep ?_ (List.nodup_cons.1 hnd).2
          intro j hj
          have hne : j ≠ i := fun he => (List.nodup_cons.1 hnd).1 (he ▸ hj)
          have hjS : j ∉ S := hdisj j (List.mem_cons_of_mem _ hj)
          simp [hne, hjS]
      | frame f => exact ih S _ hstep hdisj hnd
      | timeout i => exact ih S _ hstep hdisj hnd
      | close => exact ih S _ hstep hdisj hnd

/-- C4: `sendCommand` registers its fresh correlation id in the pending
map (before the envelope is transmitted — the transmit is the final
action of `sendCommandActions`), and along any event trace whose issued
ids are fresh (as `uuidv4` guarantees), each id has at most one pending
entry, is settled at most once overall — no double resolution — and,
once settled, its entry is gone (an id still pending has no settlement,
so removal and settlement each happen at most once and together). -/
theorem pending_registered_and_settled_once {M : Type} (evs : List (IssuerEvent M))
    (h : (sentIds evs).Nodup) :
    (∀ (st : IssuerState M) (j : String), j ∈ (registerPending st j).pending) ∧
      ∀ i, (outFor (issuerRun (issuerInit M) evs) i).length ≤ 1 ∧
        (issuerRun (issuerInit M) evs).pending.count i ≤ 1 ∧
        (i ∈ (issuerRun (issuerInit M) evs).pending →
          outFor (issuerRun (issuerInit M) evs) i = []) := by
  have hinit : IssuerInv (M := M) [] (issuerInit M) := by
    refine ⟨List.nodup_nil, ?_, ?_, ?_, ?_⟩ <;> simp [outFor, issuerInit]
  obtain ⟨T, hT⟩ := issuerRun_inv evs [] (issuerInit M) hinit (by simp) h
  obtain ⟨h1, _, _, h4, h5⟩ := hT
  refine ⟨?_, ?_⟩
  · intro st j
    simp only [registerPending]
    split
    · next hmem => simpa using hmem
    · simp
  · intro i
    exact ⟨h4 i, List.nodup_iff_count_le_one.1 h1 i, fun hm => h5 i hm⟩

theorem pending_registered_and_settled_once_witness :
    (outFor (issuerRun (issuerInit Nat)
        [IssuerEvent.send "a", IssuerEvent.send "b",
         IssuerEvent.frame (.broadcast (some ⟨"b", some 2, none⟩)),
         IssuerEvent.timeout "a", IssuerEvent.close]) "a").length ≤ 1 ∧
      (issuerRun (issuerInit Nat)
        [IssuerEvent.send "a", IssuerEvent.send "b",
         IssuerEvent.frame (.broadcast (some ⟨"b", some 2, none⟩)),
         IssuerEvent.timeout "a", IssuerEvent.close]).pending.count "a" ≤ 1 :=
  let h := (pending_registered_and_settled_once
    [IssuerEvent.send "a", IssuerEvent.send "b",
     IssuerEvent.frame (.broadcast (some ⟨"b", some 2, none⟩)),
     IssuerEvent.timeout "a", IssuerEvent.close] (by decide)).2 "a"
  ⟨h.1, h.2.1⟩
